import Mathlib

/-!
Verification of the `reroutine` package (github.com/clarkmcc/go-reroutine):
a restart-on-panic supervision loop for goroutines.

The repository holds two snapshots of the core loop:
* `reroutine.go` (context-based): `BlockingGo(ctx, do)` drains a `start`
  channel with `for _ = range start` and checks `ctx.Err()` after each
  received token; modelled here as `BlockingGoCtx`.
* the channel-based snapshot (matching the README and `reroutine_test.go`):
  `BlockingGo(stopChan, do)` uses a `select` over `stopChan` and `start`;
  modelled here as `BlockingGo`.
Both share `BlockingGoTomb` and the crash-containment utilities
(`HandleCrash`, `logPanic`, `ReallyCrash`, `PanicHandlers`, `PrintError`).

Modelling conventions:
* A Go `interface{}` value is `Option V` (`none` is the nil interface).
  A panic payload is therefore an `Option V`; `recover()` inside a deferred
  function returns that payload and stops the panicking sequence even when
  the payload is nil (pre-Go-1.21 semantics, the ones in effect for this
  2022 code base).
* Handlers are opaque identifiers; `HandleCrash` returns the list of
  handler invocations (handler, payload) in the order they are performed,
  together with the payload it re-raises (if any).
* The unbuffered `start` channel is a single-slot readiness signal; its
  observable states are `pending` (one blocked sender holds a token),
  `closedCh`, `running k` (attempt `k` is in flight and has not yet
  delivered its event), and `empty` (no sender will ever come: the attempt
  finished without sending or closing).
* Scheduling nondeterminism is explicit: `cancelled t` says whether the
  cancellation signal is set at the loop driver's `t`-th wait, `deliver t`
  says whether an in-flight attempt's channel event has become visible by
  wait `t`, and `pick t` resolves Go's random `select` choice when both
  cases are ready (`true` = take the cancellation case).
* Loops run on `fuel`: one unit per driver wait. A result `(k, none)`
  means `k` attempts were launched and the call had not returned within
  `fuel` waits; `(k, some e)` means it returned with exit `e`.
-/

namespace Reroutine

variable {V E α : Type}

/-- Initial value of the package-level variable `ReallyCrash` in the crash
containment file: `ReallyCrash = false`. (Its doc comment claims it "now
defaults true", but the code assigns `false`.) -/
def ReallyCrash : Bool := false

/-- Opaque identifiers for the registered panic handlers; the default
registry holds only the logging handler. -/
inductive HandlerId where
  | logPanic : HandlerId
deriving DecidableEq

/-- Initial value of `var PanicHandlers = []func(interface{}){logPanic}`. -/
def PanicHandlers : List HandlerId := [HandlerId.logPanic]

/-- Model of `HandleCrash(additionalHandlers ...func(interface{}))` run as a
deferred function. `r` is what `recover()` returns: `none` when the work
returned normally or panicked with a nil payload, `some v` otherwise.
The result is the list of handler invocations performed, in order
(the whole `PanicHandlers` registry, then the `additionalHandlers`, each
applied to the payload `v`), paired with the payload the call re-raises
(`some v` exactly when the guard fired and `reallyCrash` is set). When the
guard `r != nil` does not fire, nothing at all happens. -/
def HandleCrash (reallyCrash : Bool) (panicHandlers additionalHandlers : List α)
    (r : Option V) : List (α × V) × Option V :=
  match r with
  | none => ([], none)
  | some v =>
      (panicHandlers.map (fun h => (h, v)) ++ additionalHandlers.map (fun h => (h, v)),
       if reallyCrash then some v else none)

/-- The constant `size = 64 << 10` in `logPanic`: the stack-trace buffer is
64 KiB. -/
def logPanicBufSize : Nat := 64 <<< 10

/-- Model of `runtime.Stack(buf, all)` followed by the truncation
`stacktrace[:n]`: the written trace is the relevant stack dump truncated to
the buffer size. `currentStack` is the calling goroutine's stack dump,
`allStacks` the dump of every goroutine's stack. -/
def runtimeStack (bufSize : Nat) (all : Bool) (currentStack allStacks : List Char) :
    List Char :=
  (if all then allStacks else currentStack).take bufSize

/-- The panic payload as `logPanic` formats it: either a Go `string`
(printed with the s verb) or any other value (printed with its go-syntax
and default representations). -/
inductive PanicVal where
  | str : String → PanicVal
  | other : String → String → PanicVal

/-- Model of `logPanic(r interface{})`: builds the message handed to the
pluggable sink `PrintError`. The stack trace is captured with
`runtime.Stack(stacktrace, false)` — the calling (faulting) goroutine only —
into a 64 KiB buffer. -/
def logPanic (currentStack allStacks : List Char) (r : PanicVal) : List Char :=
  let stacktrace := runtimeStack logPanicBufSize false currentStack allStacks
  match r with
  | .str s => "Observed a panic: ".data ++ s.data ++ ['\n'] ++ stacktrace
  | .other g v =>
      "Observed a panic: ".data ++ g.data ++ " (".data ++ v.data ++ ")".data
        ++ ['\n'] ++ stacktrace

/-- The handler as the specification describes it: identical to `logPanic`
except that the captured stack trace is claimed to be "a snapshot of all
thread-of-execution stacks", i.e. `runtime.Stack` with `all = true`.
Declared only to be compared against the code's `logPanic`. -/
def logPanicSpecAllStacks (currentStack allStacks : List Char) (r : PanicVal) :
    List Char :=
  let stacktrace := runtimeStack logPanicBufSize true currentStack allStacks
  match r with
  | .str s => "Observed a panic: ".data ++ s.data ++ ['\n'] ++ stacktrace
  | .other g v =>
      "Observed a panic: ".data ++ g.data ++ " (".data ++ v.data ++ ")".data
        ++ ['\n'] ++ stacktrace

/-- Observable outcome of one execution of the plain unit of work `do()`:
it returns normally, or it panics with payload `p : Option V` (`none` is a
nil panic payload). -/
inductive Outcome (V : Type) where
  | normal : Outcome V
  | panics : Option V → Outcome V

/-- Observable state of the unbuffered single-slot `start` channel as seen
by the loop driver: a token is pending (one blocked sender), the channel is
closed, attempt `k` is in flight and has not yet delivered its event, or no
sender will ever come again. -/
inductive ChState where
  | pending : ChState
  | closedCh : ChState
  | running : Nat → ChState
  | empty : ChState
deriving DecidableEq

/-- How a blocking supervision call returns: the cancellation signal was
taken, or the work completed (the `start` channel was closed). -/
inductive LoopExit where
  | cancelled : LoopExit
  | completed : LoopExit
deriving DecidableEq

/-- Channel event produced by one attempt goroutine
`go func() { defer HandleCrash(func(_ interface{}) { start <- struct{}{} }); do(); close(start) }`:
a normal return closes `start`; a panic with non-nil payload fires the
extra handler inside `HandleCrash`, which sends one token; a nil-payload
panic is stopped by `recover()` but the guard `r != nil` fails, so the
goroutine exits having neither sent nor closed. -/
def attemptEvent : Outcome V → ChState
  | .normal => .closedCh
  | .panics (some _) => .pending
  | .panics none => .empty

/-- One scheduling tick of an in-flight attempt: if the attempt's event has
been delivered by now, the channel assumes the event state `ev k`;
every other channel state is unchanged. -/
def chResolve (ev : Nat → ChState) (deliver : Bool) : ChState → ChState
  | .running k => if deliver then ev k else .running k
  | s => s

/-- Whether the `case _, ok := <-start` arm of the `select` is ready:
a receive succeeds immediately iff a sender is blocked or the channel is
closed. -/
def startReady : ChState → Bool
  | .pending => true
  | .closedCh => true
  | _ => false

/-- Driver loop of the channel-based `BlockingGo` (the snapshot exercised
by `reroutine_test.go`): each wait costs one unit of fuel; at wait `t` the
in-flight event resolves if `deliver t`, then the `select` runs.
`cancelled t` is whether `stopChan` is closed at wait `t`; when both
`stopChan` and `start` are ready, `pick t = true` means the arbiter takes
the `stopChan` case. Receiving a token launches the next attempt
(`running k`, counter `k+1`); receiving from the closed channel returns
(`ok == false`); if neither case is ready the driver blocks for one tick.
The result is (attempts launched, exit if returned within the fuel). -/
def BlockingGoAux (cancelled pick deliver : Nat → Bool) (ev : Nat → ChState) :
    Nat → Nat → ChState → Nat → Nat × Option LoopExit
  | 0, _, _, k => (k, none)
  | f + 1, t, s, k =>
    match chResolve ev (deliver t) s with
    | .pending =>
        if cancelled t && pick t then (k, some .cancelled)
        else BlockingGoAux cancelled pick deliver ev f (t + 1) (.running k) (k + 1)
    | .closedCh =>
        if cancelled t && pick t then (k, some .cancelled)
        else (k, some .completed)
    | s' =>
        if cancelled t then (k, some .cancelled)
        else BlockingGoAux cancelled pick deliver ev f (t + 1) s' k

/-- `BlockingGo(stopChan, do)`, channel-based snapshot: the seeding
goroutine blocks sending the first token, so the driver starts at state
`pending` with no attempt yet launched. -/
def BlockingGo (cancelled pick deliver : Nat → Bool) (work : Nat → Outcome V)
    (fuel : Nat) : Nat × Option LoopExit :=
  BlockingGoAux cancelled pick deliver (fun k => attemptEvent (work k)) fuel 0 .pending 0

/-- Driver loop shared by `reroutine.go`'s `BlockingGo` (context-based) and
by `BlockingGoTomb`: `for _ = range start` waits only on `start`; after a
token is received the cancellation signal is checked (`ctx.Err()` /
a non-blocking poll of `ts.Dying()`) before launching the next attempt, and
a receive from the closed channel ends the loop. -/
def superviseRangeAux (cancelled deliver : Nat → Bool) (ev : Nat → ChState) :
    Nat → Nat → ChState → Nat → Nat × Option LoopExit
  | 0, _, _, k => (k, none)
  | f + 1, t, s, k =>
    match chResolve ev (deliver t) s with
    | .pending =>
        if cancelled t then (k, some .cancelled)
        else superviseRangeAux cancelled deliver ev f (t + 1) (.running k) (k + 1)
    | .closedCh => (k, some .completed)
    | s' => superviseRangeAux cancelled deliver ev f (t + 1) s' k

/-- `BlockingGo(ctx, do)` from `reroutine.go`: context-based snapshot.
`cancelled t` is whether `ctx.Err() != nil` at wait `t`. -/
def BlockingGoCtx (cancelled deliver : Nat → Bool) (work : Nat → Outcome V)
    (fuel : Nat) : Nat × Option LoopExit :=
  superviseRangeAux cancelled deliver (fun k => attemptEvent (work k)) fuel 0 .pending 0

/-- Outcome of one execution of the tomb variant's unit of work
`do() error`: it returns an error value (possibly nil), or panics. -/
inductive TombOutcome (E V : Type) where
  | ret : Option E → TombOutcome E V
  | panics : Option V → TombOutcome E V

/-- What the closure handed to `ts.Go` does, beyond running `do()`:
either it returns an error value to the tomb's tracking, or (when
`HandleCrash` re-raises) the panic escapes it. -/
inductive ClosureResult (E : Type) where
  | returns : Option E → ClosureResult E
  | panicsOut : ClosureResult E
deriving DecidableEq

/-- Model of the closure `func() error { defer HandleCrash(func(_ interface{}) { start <- struct{}{} }); err := do(); close(start); return err }`
launched through `ts.Go`: a return (nil or not) closes `start` and hands
the error to the tomb; a panic skips `close(start)` and runs the deferred
`HandleCrash`, whose recovery stops the panic — with a non-nil payload the
extra handler sends a restart token and, because the deferred function has
recovered, the closure returns the zero value `nil` to the tomb (unless the
re-raise flag makes `HandleCrash` panic again); with a nil payload the
guard does not fire, so nothing is sent and the closure still returns the
zero value `nil`. -/
def tombClosure (reallyCrash : Bool) : TombOutcome E V → ChState × ClosureResult E
  | .ret e => (.closedCh, .returns e)
  | .panics none => (.empty, .returns none)
  | .panics (some _) => (.pending, if reallyCrash then .panicsOut else .returns none)

/-- `BlockingGoTomb(ts, do)`: same `for _ = range start` driver, with the
non-blocking poll of `ts.Dying()` as the cancellation check and each
attempt launched through `ts.Go`. Run under the package default
`ReallyCrash`. -/
def BlockingGoTomb (dying deliver : Nat → Bool) (work : Nat → TombOutcome E V)
    (fuel : Nat) : Nat × Option LoopExit :=
  superviseRangeAux dying deliver (fun k => (tombClosure ReallyCrash (work k)).1)
    fuel 0 .pending 0

/-- The error value an attempt's closure reports to `ts.Go`'s termination
tracking (`none` when the closure never returns because the panic
escaped). -/
def ClosureResult.reportedErr : ClosureResult E → Option E
  | .returns e => e
  | .panicsOut => none

/-- The errors reported to the tomb by the first `n` launched attempts, in
launch order. -/
def tombReported (work : Nat → TombOutcome E V) (n : Nat) : List (Option E) :=
  (List.range n).map fun k => ((tombClosure ReallyCrash (work k)).2).reportedErr

/-- Death-reason bookkeeping of the `Tomb` collaborator (`mockTomb` in
`reroutine_test.go`): `run` calls `kill(err)` for a goroutine that returns
a non-nil error, and `kill` records the first non-nil reason; so the
group's death reason is the first non-nil reported error. -/
def deathReason (reported : List (Option E)) : Option E :=
  reported.findSome? id

/-- `Go(stopChan, do)` is `go BlockingGo(stopChan, do)`: the spawned
thread of execution computes exactly the blocking call while the caller
returns immediately; this names the spawned computation. -/
def Go (cancelled pick deliver : Nat → Bool) (work : Nat → Outcome V) :
    Nat → Nat × Option LoopExit :=
  BlockingGo cancelled pick deliver work

/-- `GoTomb(ts, do)` is `go BlockingGoTomb(ts, do)`: the spawned
computation. -/
def GoTomb (dying deliver : Nat → Bool) (work : Nat → TombOutcome E V) :
    Nat → Nat × Option LoopExit :=
  BlockingGoTomb dying deliver work

end Reroutine

namespace Reroutine

/-! Helper lemmas about the two loop drivers, under the fair schedule
(`deliver` always true) and specific cancellation behaviours. -/

/-- With fair delivery, waiting while attempt `j` is in flight behaves like
waiting on its delivered event, here a restart token. -/
lemma blockingGoAux_running_pending (cancelled pick deliver : Nat → Bool)
    (ev : Nat → ChState) (j : Nat) (hj : ev j = .pending)
    (hd : ∀ t, deliver t = true) (f t k : Nat) :
    BlockingGoAux cancelled pick deliver ev f t (.running j) k =
      BlockingGoAux cancelled pick deliver ev f t .pending k := by
  cases f with
  | zero => rfl
  | succ f => simp only [BlockingGoAux, chResolve, hd t, if_true, hj]

/-- Select-driver, never cancelled, every attempt faults with a non-nil
payload: every wait launches one more attempt and the call never returns. -/
lemma blockingGoAux_pending_forever (pick deliver : Nat → Bool) (ev : Nat → ChState)
    (hev : ∀ j, ev j = .pending) (hd : ∀ t, deliver t = true) :
    ∀ f t k, BlockingGoAux (fun _ => false) pick deliver ev f t .pending k =
      (k + f, none) := by
  intro f
  induction f with
  | zero => intro t k; simp [BlockingGoAux]
  | succ f ih =>
      intro t k
      simp only [BlockingGoAux, chResolve, Bool.false_and, Bool.false_eq_true,
        if_false]
      rw [blockingGoAux_running_pending _ _ _ _ _ (hev k) hd,
        ih (t + 1) (k + 1)]
      simp [Nat.add_assoc, Nat.add_comm 1 f]

/-- Select-driver, never cancelled: once the channel closes, the next wait
receives `ok == false` and returns without launching anything. -/
lemma blockingGoAux_closed_completes (pick deliver : Nat → Bool) (ev : Nat → ChState)
    (f t k : Nat) (hf : 1 ≤ f) :
    BlockingGoAux (fun _ => false) pick deliver ev f t .closedCh k =
      (k, some .completed) := by
  cases f with
  | zero => omega
  | succ f => simp [BlockingGoAux, chResolve]

/-- Select-driver, never cancelled, fair delivery: if the next `Kp`
attempts fault (their events are restart tokens) and attempt `k + Kp`
completes normally (its event closes the channel), the loop launches
exactly `Kp + 1` further attempts and returns `completed`. -/
lemma blockingGoAux_completes (pick deliver : Nat → Bool) (ev : Nat → ChState)
    (hd : ∀ t, deliver t = true) :
    ∀ Kp k, (∀ j, j < Kp → ev (k + j) = .pending) → ev (k + Kp) = .closedCh →
      ∀ f t, Kp + 2 ≤ f →
        BlockingGoAux (fun _ => false) pick deliver ev f t .pending k =
          (k + Kp + 1, some .completed) := by
  intro Kp
  induction Kp with
  | zero =>
      intro k _ h2 f t hf
      match f, hf with
      | f + 1, _ =>
        simp only [BlockingGoAux, chResolve, Bool.false_and, Bool.false_eq_true,
          if_false]
        have hf1 : 1 ≤ f := by omega
        match f, hf1 with
        | f + 1, _ =>
          simp only [Nat.add_zero] at h2
          simp only [BlockingGoAux, chResolve, hd (t + 1), if_true, h2,
            Bool.false_and, Bool.false_eq_true, if_false]
  | succ Kp ih =>
      intro k h1 h2 f t hf
      have hk : ev k = .pending := by simpa using h1 0 (Nat.succ_pos _)
      match f, hf with
      | f + 1, _ =>
        simp only [BlockingGoAux, chResolve, Bool.false_and, Bool.false_eq_true,
          if_false]
        rw [blockingGoAux_running_pending _ _ _ _ _ hk hd]
        have h1' : ∀ j, j < Kp → ev (k + 1 + j) = .pending := by
          intro j hj
          have := h1 (j + 1) (by omega)
          rwa [show k + (j + 1) = k + 1 + j by omega] at this
        have h2' : ev (k + 1 + Kp) = .closedCh := by
          rwa [show k + (Kp + 1) = k + 1 + Kp by omega] at h2
        rw [ih (k + 1) h1' h2' f (t + 1) (by omega)]
        congr 1
        omega

/-- Select-driver, never cancelled: once the in-flight attempt will
deliver no event at all (a nil-payload panic), the driver blocks forever
without launching or returning. -/
lemma blockingGoAux_stuck (pick deliver : Nat → Bool) (ev : Nat → ChState)
    (j0 : Nat) (hj : ev j0 = .empty) :
    ∀ f t k s, s = .running j0 ∨ s = .empty →
      BlockingGoAux (fun _ => false) pick deliver ev f t s k = (k, none) := by
  intro f
  induction f with
  | zero => intro t k s _; rfl
  | succ f ih =>
      intro t k s hs
      rcases hs with hs | hs <;> subst hs
      · simp only [BlockingGoAux, chResolve]
        cases hdt : deliver t with
        | true =>
            simp only [if_true, hj, Bool.false_eq_true, if_false]
            exact ih (t + 1) k .empty (Or.inr rfl)
        | false =>
            simp only [Bool.false_eq_true, if_false]
            exact ih (t + 1) k (.running j0) (Or.inl rfl)
      · simp only [BlockingGoAux, chResolve, Bool.false_eq_true, if_false]
        exact ih (t + 1) k .empty (Or.inr rfl)

/-- Range-driver analogue of `blockingGoAux_running_pending`. -/
lemma rangeAux_running_pending (cancelled deliver : Nat → Bool)
    (ev : Nat → ChState) (j : Nat) (hj : ev j = .pending)
    (hd : ∀ t, deliver t = true) (f t k : Nat) :
    superviseRangeAux cancelled deliver ev f t (.running j) k =
      superviseRangeAux cancelled deliver ev f t .pending k := by
  cases f with
  | zero => rfl
  | succ f => simp only [superviseRangeAux, chResolve, hd t, if_true, hj]

/-- Range-driver, never cancelled, every attempt faults with a non-nil
payload: the call never returns and launches one attempt per wait. -/
lemma rangeAux_pending_forever (deliver : Nat → Bool) (ev : Nat → ChState)
    (hev : ∀ j, ev j = .pending) (hd : ∀ t, deliver t = true) :
    ∀ f t k, superviseRangeAux (fun _ => false) deliver ev f t .pending k =
      (k + f, none) := by
  intro f
  induction f with
  | zero => intro t k; simp [superviseRangeAux]
  | succ f ih =>
      intro t k
      simp only [superviseRangeAux, Bool.false_eq_true, if_false, chResolve]
      rw [rangeAux_running_pending _ _ _ _ (hev k) hd, ih (t + 1) (k + 1)]
      simp [Nat.add_assoc, Nat.add_comm 1 f]

/-- Range-driver analogue of `blockingGoAux_completes`. -/
lemma rangeAux_completes (deliver : Nat → Bool) (ev : Nat → ChState)
    (hd : ∀ t, deliver t = true) :
    ∀ Kp k, (∀ j, j < Kp → ev (k + j) = .pending) → ev (k + Kp) = .closedCh →
      ∀ f t, Kp + 2 ≤ f →
        superviseRangeAux (fun _ => false) deliver ev f t .pending k =
          (k + Kp + 1, some .completed) := by
  intro Kp
  induction Kp with
  | zero =>
      intro k _ h2 f t hf
      match f, hf with
      | f + 1, _ =>
        simp only [superviseRangeAux, Bool.false_eq_true, if_false, chResolve]
        have hf1 : 1 ≤ f := by omega
        match f, hf1 with
        | f + 1, _ =>
          simp only [Nat.add_zero] at h2
          simp only [superviseRangeAux, chResolve, hd (t + 1), if_true, h2]
  | succ Kp ih =>
      intro k h1 h2 f t hf
      have hk : ev k = .pending := by simpa using h1 0 (Nat.succ_pos _)
      match f, hf with
      | f + 1, _ =>
        simp only [superviseRangeAux, Bool.false_eq_true, if_false, chResolve]
        rw [rangeAux_running_pending _ _ _ _ hk hd]
        have h1' : ∀ j, j < Kp → ev (k + 1 + j) = .pending := by
          intro j hj
          have := h1 (j + 1) (by omega)
          rwa [show k + (j + 1) = k + 1 + j by omega] at this
        have h2' : ev (k + 1 + Kp) = .closedCh := by
          rwa [show k + (Kp + 1) = k + 1 + Kp by omega] at h2
        rw [ih (k + 1) h1' h2' f (t + 1) (by omega)]
        congr 1
        omega

/-- Scanning a list of reported errors that are all nil finds nothing
before the tail. -/
lemma findSome?_id_append_all_none {E : Type} (l l' : List (Option E))
    (h : ∀ x ∈ l, x = none) :
    (l ++ l').findSome? id = l'.findSome? id := by
  induction l with
  | nil => rfl
  | cons a l ih =>
      have ha : a = none := h a (List.mem_cons_self a l)
      subst ha
      simp only [List.cons_append, List.findSome?]
      exact ih fun x hx => h x (List.mem_cons_of_mem _ hx)

/-- A run that reports only nil errors yields no death reason. -/
lemma findSome?_id_replicate_none {E : Type} :
    ∀ n, (List.replicate n (none : Option E)).findSome? id = none := by
  intro n
  induction n with
  | zero => rfl
  | succ n ih =>
      rw [List.replicate_succ]
      simp only [List.findSome?, id]
      exact ih

end Reroutine

namespace Reroutine

/-- C5: on a contained fault (`recover` returns a non-nil payload `v`),
`HandleCrash` invokes every handler of the process-wide registry in
registration order with payload `v`, then every extra handler in the order
given, with the same payload; when the work returns normally (`recover`
yields nil) no handler is invoked. -/
theorem handleCrash_runs_registry_then_extras_in_order {V α : Type}
    (reallyCrash : Bool) (registry extras : List α) (v : V) :
    (HandleCrash reallyCrash registry extras (some v)).1 =
        registry.map (fun h => (h, v)) ++ extras.map (fun h => (h, v))
      ∧ (HandleCrash reallyCrash registry extras (none : Option V)).1 = [] := by
  constructor <;> rfl

/-- C6: when the re-raise flag is set, `HandleCrash` re-raises the original
payload unchanged, and only after the full handler chain has run; the
package default `ReallyCrash` is `false`, under which no contained fault
ever propagates (the re-raised payload is always `none`). -/
theorem handleCrash_reraise_flag_default_off {V α : Type} :
    ReallyCrash = false
      ∧ (∀ (registry extras : List α) (v : V),
          HandleCrash true registry extras (some v) =
            (registry.map (fun h => (h, v)) ++ extras.map (fun h => (h, v)), some v))
      ∧ (∀ (registry extras : List α) (r : Option V),
          (HandleCrash ReallyCrash registry extras r).2 = none) := by
  refine ⟨rfl, fun registry extras v => rfl, fun registry extras r => ?_⟩
  cases r <;> rfl

/-- C1: a unit of work that faults (with a non-nil payload) on every
attempt, with a cancellation source that is never signalled: under the
fair schedule each contained fault re-arms the readiness signal and the
driver launches one further attempt per wait, so within any observation
window of `fuel` waits exactly `fuel` attempts have been launched and the
blocking call has not returned — in both snapshots of `BlockingGo`. -/
theorem blockingGo_always_faulting_restarts_unboundedly {V : Type}
    (work : Nat → Outcome V) (hw : ∀ k, ∃ v, work k = .panics (some v))
    (pick : Nat → Bool) (fuel : Nat) :
    BlockingGo (fun _ => false) pick (fun _ => true) work fuel = (fuel, none)
      ∧ BlockingGoCtx (fun _ => false) (fun _ => true) work fuel = (fuel, none) := by
  have hev : ∀ j, attemptEvent (work j) = ChState.pending := by
    intro j
    obtain ⟨v, hv⟩ := hw j
    rw [hv]
    rfl
  constructor
  · have h := blockingGoAux_pending_forever pick (fun _ => true)
      (fun k => attemptEvent (work k)) hev (fun _ => rfl) fuel 0 0
    simpa [BlockingGo] using h
  · have h := rangeAux_pending_forever (fun _ => true)
      (fun k => attemptEvent (work k)) hev (fun _ => rfl) fuel 0 0
    simpa [BlockingGoCtx] using h

/-- Witness for C1 at a concrete always-faulting work. -/
theorem blockingGo_always_faulting_restarts_unboundedly_witness :
    BlockingGo (fun _ => false) (fun _ => false) (fun _ => true)
        (fun _ => Outcome.panics (some (0 : Nat))) 4 = (4, none)
      ∧ BlockingGoCtx (fun _ => false) (fun _ => true)
        (fun _ => Outcome.panics (some (0 : Nat))) 4 = (4, none) :=
  blockingGo_always_faulting_restarts_unboundedly
    (fun _ => Outcome.panics (some 0)) (fun _ => ⟨0, rfl⟩) (fun _ => false) 4

/-- C2: a unit of work that completes normally on attempt `K` (the first
`K - 1` attempts fault with non-nil payloads, attempt `K` returns), never
cancelled, fair schedule: `BlockingGo` (both snapshots) and
`BlockingGoTomb` launch the work exactly `K` times and return `completed`,
for every fuel bound of at least `K + 1` waits — no `K + 1`-st attempt is
ever launched. The last conjunct is the terminal success path: once the
readiness channel is closed, any wait on it returns at once without
launching anything. -/
theorem blockingGo_normal_completion_K_attempts {V E : Type}
    (work : Nat → Outcome V) (workT : Nat → TombOutcome E V) (K : Nat)
    (hK : 1 ≤ K)
    (hf : ∀ j, j + 1 < K → ∃ v, work j = .panics (some v))
    (hn : work (K - 1) = .normal)
    (hfT : ∀ j, j + 1 < K → ∃ v, workT j = .panics (some v))
    (hnT : ∃ e, workT (K - 1) = .ret e)
    (pick : Nat → Bool) (fuel : Nat) (hfuel : K + 1 ≤ fuel) :
    BlockingGo (fun _ => false) pick (fun _ => true) work fuel =
        (K, some .completed)
      ∧ BlockingGoCtx (fun _ => false) (fun _ => true) work fuel =
          (K, some .completed)
      ∧ BlockingGoTomb (fun _ => false) (fun _ => true) workT fuel =
          (K, some .completed)
      ∧ (∀ f t k, 1 ≤ f →
          BlockingGoAux (fun _ => false) pick (fun _ => true)
            (fun j => attemptEvent (work j)) f t .closedCh k =
              (k, some .completed)) := by
  obtain ⟨Kp, rfl⟩ : ∃ Kp, K = Kp + 1 := ⟨K - 1, by omega⟩
  simp only [Nat.add_sub_cancel] at hn hnT
  have h1 : ∀ j, j < Kp → attemptEvent (work (0 + j)) = ChState.pending := by
    intro j hj
    obtain ⟨v, hv⟩ := hf j (by omega)
    simp only [Nat.zero_add, hv]
    rfl
  have h2 : attemptEvent (work (0 + Kp)) = ChState.closedCh := by
    simp only [Nat.zero_add, hn]
    rfl
  have h1T : ∀ j, j < Kp →
      (tombClosure ReallyCrash (workT (0 + j))).1 = ChState.pending := by
    intro j hj
    obtain ⟨v, hv⟩ := hfT j (by omega)
    simp only [Nat.zero_add, hv]
    rfl
  have h2T : (tombClosure ReallyCrash (workT (0 + Kp))).1 = ChState.closedCh := by
    obtain ⟨e, he⟩ := hnT
    simp only [Nat.zero_add, he]
    rfl
  refine ⟨?_, ?_, ?_, ?_⟩
  · have h := blockingGoAux_completes pick (fun _ => true)
      (fun j => attemptEvent (work j)) (fun _ => rfl) Kp 0 h1 h2 fuel 0 (by omega)
    simpa [BlockingGo] using h
  · have h := rangeAux_completes (fun _ => true)
      (fun j => attemptEvent (work j)) (fun _ => rfl) Kp 0 h1 h2 fuel 0 (by omega)
    simpa [BlockingGoCtx] using h
  · have h := rangeAux_completes (fun _ => true)
      (fun j => (tombClosure ReallyCrash (workT j)).1) (fun _ => rfl) Kp 0
      h1T h2T fuel 0 (by omega)
    simpa [BlockingGoTomb] using h
  · intro f t k hfk
    exact blockingGoAux_closed_completes pick (fun _ => true) _ f t k hfk

/-- Witness for C2: completion on attempt 3 after two contained faults. -/
theorem blockingGo_normal_completion_K_attempts_witness :
    BlockingGo (fun _ => false) (fun _ => false) (fun _ => true)
        (fun k => if k < 2 then Outcome.panics (some (0 : Nat)) else .normal) 9 =
        (3, some .completed)
      ∧ BlockingGoCtx (fun _ => false) (fun _ => true)
          (fun k => if k < 2 then Outcome.panics (some (0 : Nat)) else .normal) 9 =
          (3, some .completed)
      ∧ BlockingGoTomb (fun _ => false) (fun _ => true)
          (fun k => if k < 2 then TombOutcome.panics (some (0 : Nat))
            else TombOutcome.ret (none : Option String)) 9 =
          (3, some .completed) :=
  have h := blockingGo_normal_completion_K_attempts
    (fun k => if k < 2 then Outcome.panics (some (0 : Nat)) else .normal)
    (fun k => if k < 2 then TombOutcome.panics (some (0 : Nat))
      else TombOutcome.ret (none : Option String))
    3 (by omega)
    (fun j hj => ⟨0, by simp [show j < 2 by omega]⟩)
    (by simp)
    (fun j hj => ⟨0, by simp [show j < 2 by omega]⟩)
    ⟨none, by simp⟩
    (fun _ => false) 9 (by omega)
  ⟨h.1, h.2.1, h.2.2.1⟩

/-- C3 (refuting evaluation, channel snapshot): the `select` in
`BlockingGo` has no cancellation priority. Both runs start with `stopChan`
already closed at every wait and an always-faulting work. In the first run
the arbiter resolves the first ready-ready tie in favour of the `start`
token (`pick 0 = false`): the driver launches one more attempt even though
cancellation is set, returning only at the next wait — `(1, cancelled)`.
In the second run the arbiter favours `stopChan`: no attempt is launched —
`(0, cancelled)`. So when cancellation and a restart token are
simultaneously ready, cancellation does not always win, and a further
attempt can be launched after cancellation is signalled. -/
theorem blockingGo_cancelled_tie_can_take_restart :
    BlockingGo (fun _ => true) (fun t => t != 0) (fun _ => true)
        (fun _ => Outcome.panics (some (0 : Nat))) 2 = (1, some .cancelled)
      ∧ BlockingGo (fun _ => true) (fun _ => true) (fun _ => true)
          (fun _ => Outcome.panics (some (0 : Nat))) 2 = (0, some .cancelled) := by
  constructor <;> rfl

/-- C4: tomb variant, never dying, fair schedule: when the first `K - 1`
attempts fault (non-nil payloads) and attempt `K` returns a non-nil error
without faulting, supervision stops after attempt `K` with no restart
(`completed`, exactly `K` launches), the closure hands exactly that error
to `ts.Go`'s termination tracking, and the collaborator's first-non-nil
death-reason bookkeeping records it. -/
theorem blockingGoTomb_error_return_stops_supervision {E V : Type}
    (workT : Nat → TombOutcome E V) (K : Nat) (hK : 1 ≤ K)
    (hfT : ∀ j, j + 1 < K → ∃ v, workT j = .panics (some v))
    (e : E) (hnT : workT (K - 1) = .ret (some e))
    (fuel : Nat) (hfuel : K + 1 ≤ fuel) :
    BlockingGoTomb (fun _ => false) (fun _ => true) workT fuel =
        (K, some .completed)
      ∧ (tombClosure ReallyCrash (workT (K - 1))).2 =
          ClosureResult.returns (some e)
      ∧ deathReason (tombReported workT K) = some e := by
  obtain ⟨Kp, rfl⟩ : ∃ Kp, K = Kp + 1 := ⟨K - 1, by omega⟩
  simp only [Nat.add_sub_cancel] at hnT
  have h1T : ∀ j, j < Kp →
      (tombClosure ReallyCrash (workT (0 + j))).1 = ChState.pending := by
    intro j hj
    obtain ⟨v, hv⟩ := hfT j (by omega)
    simp only [Nat.zero_add, hv]
    rfl
  have h2T : (tombClosure ReallyCrash (workT (0 + Kp))).1 = ChState.closedCh := by
    simp only [Nat.zero_add, hnT]
    rfl
  refine ⟨?_, by simp only [Nat.add_sub_cancel]; rw [hnT]; rfl, ?_⟩
  · have h := rangeAux_completes (fun _ => true)
      (fun j => (tombClosure ReallyCrash (workT j)).1) (fun _ => rfl) Kp 0
      h1T h2T fuel 0 (by omega)
    simpa [BlockingGoTomb] using h
  · rw [show tombReported workT (Kp + 1) =
        tombReported workT Kp ++ [((tombClosure ReallyCrash (workT Kp)).2).reportedErr] by
      simp [tombReported, List.range_succ]]
    simp only [deathReason]
    rw [findSome?_id_append_all_none]
    · rw [hnT]
      rfl
    · intro x hx
      simp only [tombReported, List.mem_map, List.mem_range] at hx
      obtain ⟨j, hj, rfl⟩ := hx
      obtain ⟨v, hv⟩ := hfT j (by omega)
      rw [hv]
      rfl

/-- Witness for C4: two contained faults, then the error is surfaced. -/
theorem blockingGoTomb_error_return_stops_supervision_witness :
    BlockingGoTomb (fun _ => false) (fun _ => true)
        (fun k => if k < 2 then TombOutcome.panics (some (0 : Nat))
          else TombOutcome.ret (some "boom")) 9 = (3, some .completed)
      ∧ deathReason (tombReported
          (fun k => if k < 2 then TombOutcome.panics (some (0 : Nat))
            else TombOutcome.ret (some "boom")) 3) = some "boom" :=
  have h := blockingGoTomb_error_return_stops_supervision
    (fun k => if k < 2 then TombOutcome.panics (some (0 : Nat))
      else TombOutcome.ret (some "boom"))
    3 (by omega)
    (fun j hj => ⟨0, by simp [show j < 2 by omega]⟩)
    "boom" (by simp)
    9 (by omega)
  ⟨h.1, h.2.2⟩

/-- C7 (refuting evaluation): `logPanic` captures the stack with
`runtime.Stack(buf, false)`, so its output differs from the
specification's all-goroutine-stacks version whenever other goroutines
contribute to the full dump. -/
theorem logPanic_not_all_stacks_cex :
    logPanic ['A'] ['A', 'B'] (.str "p") ≠
      logPanicSpecAllStacks ['A'] ['A', 'B'] (.str "p") := by
  decide

/-- C7 (amended): `logPanic` formats the payload together with a stack
trace bounded to the fixed 64 KiB buffer and hands the message to the
pluggable sink `PrintError`; the captured trace is the faulting
goroutine's stack only (`runtime.Stack` is called with `all = false`), so
the message is independent of the other goroutines' stacks. -/
theorem logPanic_current_goroutine_bounded (currentStack allStacks : List Char)
    (r : PanicVal) :
    logPanic currentStack allStacks r = logPanic currentStack [] r
      ∧ runtimeStack logPanicBufSize false currentStack allStacks =
          currentStack.take logPanicBufSize
      ∧ (runtimeStack logPanicBufSize false currentStack allStacks).length ≤
          logPanicBufSize
      ∧ logPanicBufSize = 64 * 1024 := by
  refine ⟨?_, rfl, ?_, rfl⟩
  · cases r <;> rfl
  · simp only [runtimeStack, Bool.false_eq_true, if_false]
    exact List.length_take_le _ _

/-- C8: the non-blocking entry points spawn exactly the blocking ones on a
detached thread of execution: the computation `Go` schedules is
`BlockingGo` on the same arguments, and likewise `GoTomb` with
`BlockingGoTomb`. -/
theorem go_spawns_exactly_blockingGo {V E : Type}
    (cancelled pick deliver dying : Nat → Bool) (work : Nat → Outcome V)
    (workT : Nat → TombOutcome E V) (fuel : Nat) :
    Go cancelled pick deliver work fuel =
        BlockingGo cancelled pick deliver work fuel
      ∧ GoTomb dying deliver workT fuel =
          BlockingGoTomb dying deliver workT fuel :=
  ⟨rfl, rfl⟩

/-- C9 (refuting evaluation): a nil-payload panic never escapes
`HandleCrash` — the deferred `recover()` stops the panicking sequence, and
since the guard `r != nil` fails, nothing is re-raised even when the
re-raise flag is forced on; by contrast a non-nil payload does propagate
under the flag. So the fault does not "escape containment": it is
contained and silently dropped. -/
theorem handleCrash_nil_panic_does_not_escape_cex :
    (HandleCrash true [HandlerId.logPanic] [HandlerId.logPanic]
        (none : Option Nat)).2 = none
      ∧ (HandleCrash true [HandlerId.logPanic] [HandlerId.logPanic]
          (some (5 : Nat))).2 = some 5 := by
  constructor <;> rfl

/-- C9 (amended): a panic with nil payload is silently swallowed: the
guard `r != nil` does not fire, so no registry or extra handler is
invoked and nothing is re-raised; in the supervision loop no restart token
is re-armed and the channel is not closed, so the driver (never cancelled)
launches no further attempt and never returns via the success path — the
run stays at one launched attempt with no exit, for every fuel bound. -/
theorem handleCrash_nil_panic_silently_swallowed {V α : Type}
    (work : Nat → Outcome V) (hw : work 0 = .panics none) (rc : Bool)
    (registry extras : List α) (pick deliver : Nat → Bool) (fuel : Nat)
    (hfuel : 1 ≤ fuel) :
    HandleCrash rc registry extras (none : Option V) = ([], none)
      ∧ BlockingGo (fun _ => false) pick deliver work fuel = (1, none) := by
  refine ⟨rfl, ?_⟩
  match fuel, hfuel with
  | f + 1, _ =>
    show BlockingGoAux _ _ _ _ (f + 1) 0 .pending 0 = (1, none)
    simp only [BlockingGoAux, chResolve, Bool.false_and, Bool.false_eq_true,
      if_false]
    exact blockingGoAux_stuck pick deliver _ 0 (by rw [hw]; rfl) f 1 1
      (.running 0) (Or.inl rfl)

/-- Witness for C9 (amended) at a concrete nil-panicking work. -/
theorem handleCrash_nil_panic_silently_swallowed_witness :
    HandleCrash false [HandlerId.logPanic] [HandlerId.logPanic]
        (none : Option Nat) = ([], none)
      ∧ BlockingGo (fun _ => false) (fun _ => false) (fun _ => true)
          (fun _ => Outcome.panics (none : Option Nat)) 7 = (1, none) :=
  handleCrash_nil_panic_silently_swallowed
    (fun _ => Outcome.panics none) rfl false [HandlerId.logPanic]
    [HandlerId.logPanic] (fun _ => false) (fun _ => true) 7 (by omega)

/-- C10: a contained fault is invisible to the tomb's death-reason
accounting: under the default configuration, the closure handed to
`ts.Go` returns the zero value `nil` when the attempt panics with a
non-nil payload (the token is re-armed instead), so an always-faulting
work reports only nil errors to the collaborator and never contributes a
non-nil death reason. -/
theorem tombClosure_contained_fault_reports_nil {E V : Type} (v : V)
    (workT : Nat → TombOutcome E V) (hw : ∀ k, ∃ u, workT k = .panics (some u))
    (n : Nat) :
    tombClosure (E := E) ReallyCrash (.panics (some v)) =
        (.pending, .returns none)
      ∧ tombReported workT n = List.replicate n none
      ∧ deathReason (tombReported workT n) = none := by
  have hrep : tombReported workT n = List.replicate n none := by
    induction n with
    | zero => rfl
    | succ n ih =>
        obtain ⟨u, hu⟩ := hw n
        rw [show tombReported workT (n + 1) =
            tombReported workT n ++ [((tombClosure ReallyCrash (workT n)).2).reportedErr] by
          simp [tombReported, List.range_succ]]
        rw [ih, hu, List.replicate_succ' (n := n)]
        rfl
  refine ⟨rfl, hrep, ?_⟩
  rw [hrep]
  exact findSome?_id_replicate_none n

/-- Witness for C10 at a concrete always-faulting tomb work. -/
theorem tombClosure_contained_fault_reports_nil_witness :
    tombClosure (E := String) ReallyCrash (.panics (some (3 : Nat))) =
        (.pending, .returns none)
      ∧ deathReason (tombReported
          (fun _ => TombOutcome.panics (E := String) (some (3 : Nat))) 5) = none :=
  have h := tombClosure_contained_fault_reports_nil (3 : Nat)
    (fun _ => TombOutcome.panics (E := String) (some (3 : Nat)))
    (fun _ => ⟨3, rfl⟩) 5
  ⟨h.1, h.2.2⟩

end Reroutine
